import Mathlib

/-!
# checksumd: a shallow embedding of `checksum.go` and `list-missing.go`

Both programs walk the current directory, hash every regular file with MD5 and
classify it: `checksum.go` against a sidecar file `<path>.md5`, and
`list-missing.go` against a set of digests loaded from a tab separated file.

Conventions of the embedding.

* Go `string` and `[]byte` values are Lean `String`s (the conversions
  `[]byte(s)` and `string(b)` are the identity). A `Char` stands for a byte;
  the programs only compare strings, append to them, and look for the ASCII
  characters `.`, `/` and `\\`.
* Go `int` counters are `Int`. They grow by one per file, and a run sees far
  fewer than `2^63` files, so no counter wraps.
* The file system is an explicit value of type `FS`; functions that touch it
  take it as an argument and return the new one.
* The worker goroutines are run one file at a time, in the order of a list.
* `crypto/md5` is a parameter `md5 : String → List (Fin 256)` (content to
  digest bytes); `fmt`, `encoding/hex`, `encoding/csv` and `path/filepath`
  are embedded only as far as the two programs use them.
-/

namespace Checksumd

/-! ## The file system -/

/-- Errors of the `os` calls the programs make. -/
inductive IOErr where
  | notExist
  | permission
  | isDir
  | io
deriving DecidableEq, Repr

/-- A file system entry: a regular file with its content and whether it can be
opened for reading, opened for writing, and whether reading it hits an I/O
fault; or a directory. -/
inductive Node where
  | file (content : String) (readable writable faulty : Bool)
  | dir
deriving DecidableEq, Repr

/-- The file system: the entry at each path; whether a new file may be
created at a path (the parent directory exists and is writable); the umask
of the process; and, for a path where writing hits a fault such as a full
disk, the number of bytes that get written before the error. There are no
symbolic links, and the process is the owner of its files and is not root. -/
structure FS where
  node : String → Option Node
  canCreate : String → Bool
  umask : Nat
  writeFault : String → Option Nat

/-- The file system with the entry at `name` replaced by `n`. -/
def FS.setNode (fs : FS) (name : String) (n : Node) : FS :=
  { fs with node := fun p => if p = name then some n else fs.node p }

/-- The mode a file created with `perm` gets: `perm &^ umask`. -/
def createdMode (perm umask : Nat) : Nat := perm ^^^ (perm &&& umask)

/-- The handle `os.Open` returns: what reading it to the end gives. -/
abbrev Handle := Except IOErr String

/-- The call `os.Open(name)`: fails on a missing entry and on a file without read
permission; a directory opens but cannot be read. -/
def osOpen (fs : FS) (name : String) : Except IOErr Handle :=
  match fs.node name with
  | none => .error .notExist
  | some .dir => .ok (.error .isDir)
  | some (.file content readable _ faulty) =>
    if readable then
      .ok (if faulty then .error .io else .ok content)
    else .error .permission

/-- The call `os.Stat(name)`: the error, if any; succeeds exactly on an existing entry. -/
def osStat (fs : FS) (name : String) : Option IOErr :=
  match fs.node name with
  | none => some .notExist
  | some _ => none

/-- The call `ioutil.ReadFile(name)`: open, then read to the end. -/
def ioutilReadFile (fs : FS) (name : String) : Except IOErr String :=
  match osOpen fs name with
  | .error e => .error e
  | .ok h => h

/-- The call `os.OpenFile(name, O_WRONLY|O_CREATE|O_TRUNC, perm)`: a missing
file is created empty with mode `perm &^ umask` (bit 8 is the read permission
of the owner, bit 7 the write permission); an existing file must be writable
and is truncated; a directory cannot be opened for writing. Returns the new
file system and the error, if any. -/
def osOpenFileTrunc (fs : FS) (name : String) (perm : Nat) : FS × Option IOErr :=
  match fs.node name with
  | none =>
    if fs.canCreate name then
      (fs.setNode name (.file "" ((createdMode perm fs.umask).testBit 8)
        ((createdMode perm fs.umask).testBit 7) false), none)
    else (fs, some .permission)
  | some .dir => (fs, some .isDir)
  | some (.file _ readable writable faulty) =>
    if writable then (fs.setNode name (.file "" readable writable faulty), none)
    else (fs, some .permission)

/-- The file system after `data` has been written to the file at `name`, which
was just opened and truncated. -/
def FS.written (fs : FS) (name : String) (data : String) : FS :=
  match fs.node name with
  | some (.file _ readable writable faulty) =>
    fs.setNode name (.file data readable writable faulty)
  | _ => fs

/-- The call `ioutil.WriteFile(name, data, perm)`: open with create and
truncate, and return the error if that fails; then write and close. When the
write hits a fault after `n` bytes, the file keeps the first `n` bytes of
`data` and the error is returned. Returns the new file system and the error,
if any. -/
def ioutilWriteFile (fs : FS) (name : String) (data : String) (perm : Nat) :
    FS × Option IOErr :=
  match osOpenFileTrunc fs name perm with
  | (fs, some err) => (fs, some err)
  | (fs, none) =>
    match fs.writeFault name with
    | none => (fs.written name data, none)
    | some n => (fs.written name ⟨data.data.take n⟩, some .io)

/-! ## Rendering a digest -/

/-- The digit table `ldigits` of package `fmt`. -/
def ldigits : String := "0123456789abcdefx"

/-- The digit table `hextable` of package `encoding/hex`. -/
def hextable : String := "0123456789abcdef"

/-- Indexing a digit table, `digits[i]`. -/
def digitAt (digits : String) (i : Nat) : Char := digits.data.getD i '?'

/-- The call `fmt.Sprintf("%x", b)` for a byte slice `b`: for every byte `c` the two
characters `ldigits[c>>4]`, `ldigits[c&0xF]`. -/
def sprintfx (b : List (Fin 256)) : String :=
  ⟨b.flatMap fun c => [digitAt ldigits (c.val >>> 4), digitAt ldigits (c.val &&& 0xF)]⟩

/-- The call `hex.EncodeToString(b)`: for every byte `v` the two characters
`hextable[v>>4]`, `hextable[v&0x0f]`. -/
def hexEncodeToString (b : List (Fin 256)) : String :=
  ⟨b.flatMap fun v => [digitAt hextable (v.val >>> 4), digitAt hextable (v.val &&& 0x0f)]⟩

/-- The body shared by `checksumFile` of both programs, with the rendering of
the sum as a parameter: open the file, copy it into the hash, and render the
sum only when the copy succeeded. Returns the pair `(result, err)`. -/
def checksumFileWith (render : List (Fin 256) → String) (md5 : String → List (Fin 256))
    (fs : FS) (name : String) : String × Option IOErr :=
  match osOpen fs name with
  | .error err => ("", some err)
  | .ok f =>
    match f with
    | .error err => ("", some err)
    | .ok content => (render (md5 content), none)

/-! ## `checksum.go` -/

namespace Checksum

/-- The global `totals` (without its mutex); `matches_` is the field `matches`. -/
structure Totals where
  byteCount : Int
  fileCount : Int
  matches_ : Int
  added : Int
  conflicts : Int
  errors : Int
deriving DecidableEq, Repr

/-- The zero value of `totals`. -/
def Totals.zero : Totals := ⟨0, 0, 0, 0, 0, 0⟩

def ChkMatch : Int := 1
def ChkAdd : Int := 2
def ChkConflict : Int := 3
def ChkError : Int := 4

/-- The function `updateStats(what)`. -/
def updateStats (totals : Totals) (what : Int) : Totals :=
  let totals := { totals with fileCount := totals.fileCount + 1 }
  if what = ChkMatch then { totals with matches_ := totals.matches_ + 1 }
  else if what = ChkAdd then { totals with added := totals.added + 1 }
  else if what = ChkConflict then { totals with conflicts := totals.conflicts + 1 }
  else if what = ChkError then { totals with errors := totals.errors + 1 }
  else totals

/-- The function `checksumFile(name)`, which renders with `fmt.Sprintf("%x", _)`. -/
def checksumFile (md5 : String → List (Fin 256)) (fs : FS) (name : String) :
    String × Option IOErr :=
  checksumFileWith sprintfx md5 fs name

/-- A line written to standard output. -/
inductive Line where
  | err (e : IOErr)
  | added (s path : String)
  | sidecarErr (e : IOErr) (path : String)
  | conflict (s storedChecksum path : String)
deriving DecidableEq, Repr

/-- What one iteration of the loop of `validateFiles` does: the lines it
prints, the file system it leaves, and the value it hands to `updateStats`. -/
structure Step where
  out : List Line
  fs : FS
  what : Int

/-- One iteration of the loop of `validateFiles`, for the path `path`. -/
def validateFile (md5 : String → List (Fin 256)) (fs : FS) (path : String) : Step :=
  match checksumFile md5 fs path with
  | (_, some err) => ⟨[.err err], fs, ChkError⟩
  | (s, none) =>
    let csFilename := path ++ ".md5"
    match osStat fs csFilename with
    | some _ =>
      ⟨[.added s path], (ioutilWriteFile fs csFilename s 0o444).1, ChkAdd⟩
    | none =>
      match ioutilReadFile fs csFilename with
      | .error err => ⟨[.sidecarErr err path], fs, ChkError⟩
      | .ok storedChecksum =>
        if s ≠ storedChecksum then ⟨[.conflict s storedChecksum path], fs, ChkConflict⟩
        else ⟨[], fs, ChkMatch⟩

/-- The state of a run: file system, totals, and the output so far. -/
structure State where
  fs : FS
  totals : Totals
  out : List Line

/-- One iteration of `validateFiles` on the run state. -/
def processFile (md5 : String → List (Fin 256)) (st : State) (path : String) : State :=
  let step := validateFile md5 st.fs path
  ⟨step.fs, updateStats st.totals step.what, st.out ++ step.out⟩

/-- The function `validateFiles`: every path received from the channel. -/
def validateFiles (md5 : String → List (Fin 256)) (st : State) (source : List String) : State :=
  source.foldl (processFile md5) st

/-- The summary `main` prints after the workers are done. -/
def summary (totals : Totals) : String :=
  toString totals.fileCount ++ " files (" ++ toString totals.byteCount ++ " bytes) scanned: "
    ++ toString totals.matches_ ++ " matches, " ++ toString totals.added ++ " added, "
    ++ toString totals.conflicts ++ " conflicts, " ++ toString totals.errors ++ " errors\n"

/-- The call `os.IsPathSeparator(c)`: the slash, and on Windows also the backslash. -/
def IsPathSeparator (windows : Bool) (c : Char) : Bool :=
  c = '/' || (windows && c = '\\')

/-- The loop of `filepath.Ext`, with `i + 1` as the counter: going down from
`i`, stop with `""` at a path separator and with `path[i:]` at a dot. -/
def ExtLoop (windows : Bool) (path : List Char) : Nat → List Char
  | 0 => []
  | i + 1 =>
    if IsPathSeparator windows (path.getD i '/') then []
    else if path.getD i '/' = '.' then path.drop i
    else ExtLoop windows path i

/-- The call `filepath.Ext(path)`: the suffix starting at the last dot of the last
element of `path`, or `""`. -/
def Ext (windows : Bool) (path : String) : String :=
  ⟨ExtLoop windows path.data path.data.length⟩

/-- The part of `os.FileInfo` the walk looks at: `info.Mode().IsRegular()`. -/
structure FileInfo where
  isRegular : Bool
deriving DecidableEq, Repr

/-- The function `checksumFileWalk(path, info, err)`; `fileList` is the content
of the channel and the result is its content after the call. -/
def checksumFileWalk (windows : Bool) (fileList : List String) (path : String)
    (info : FileInfo) (err : Option IOErr) : List String :=
  if err = none ∧ info.isRegular = true ∧ Ext windows path ≠ ".md5" then
    fileList ++ [path]
  else fileList

end Checksum

/-! ## `encoding/csv` as `list-missing.go` configures it -/

/-- The errors `readchecksumfile` can see. -/
inductive GoErr where
  | os (e : IOErr)
  | EOF
  | ErrFieldCount
  | ErrBareQuote
  | ErrQuote
deriving DecidableEq, Repr

/-- What `readRecord` of `csv.Reader` has for one record before it checks the
number of fields: the fields and the read or quoting error, if any. -/
structure RawRecord where
  fields : List String
  err : Option GoErr
deriving DecidableEq, Repr

/-- A `csv.Reader`: the records still to come and `FieldsPerRecord`. -/
structure Reader where
  input : List RawRecord
  FieldsPerRecord : Int
deriving DecidableEq, Repr

/-- The call `csv.NewReader(f)` with the tab as `Comma`: `FieldsPerRecord` is left at zero.
The parameter `lex` is the splitting of a text into records; a handle that
fails to read gives one record with that error. -/
def NewReader (lex : String → List RawRecord) (f : Handle) : Reader :=
  match f with
  | .error e => ⟨[⟨[""], some (.os e)⟩], 0⟩
  | .ok content => ⟨lex content, 0⟩

/-- The call `r.Read()`: `io.EOF` when no record is left; otherwise the next record,
with `ErrFieldCount` when `FieldsPerRecord` is positive and differs from the
number of fields; when it is zero it is set from this record. -/
def Reader.Read (r : Reader) : (List String × Option GoErr) × Reader :=
  match r.input with
  | [] => (([], some .EOF), r)
  | raw :: rest =>
    if r.FieldsPerRecord > 0 then
      if (raw.fields.length : Int) ≠ r.FieldsPerRecord ∧ raw.err = none then
        ((raw.fields, some .ErrFieldCount), ⟨rest, r.FieldsPerRecord⟩)
      else ((raw.fields, raw.err), ⟨rest, r.FieldsPerRecord⟩)
    else if r.FieldsPerRecord = 0 then
      ((raw.fields, raw.err), ⟨rest, raw.fields.length⟩)
    else ((raw.fields, raw.err), ⟨rest, r.FieldsPerRecord⟩)

/-- The records `encoding/csv` finds in a text that has no quote and no
carriage return, with the tab as `Comma`: one per non-empty line, split at
the tabs. -/
def tsvLex (content : String) : List RawRecord :=
  ((content.data.splitOn '\n').filter fun line => line ≠ []).map fun line =>
    ⟨(line.splitOn '\t').map String.mk, none⟩

/-! ## `list-missing.go` -/

namespace ListMissing

/-- The global `totals`. -/
structure Totals where
  byteCount : Int
  fileCount : Int
  found : Int
  missing : Int
  errors : Int
deriving DecidableEq, Repr

/-- The zero value of `totals`. -/
def Totals.zero : Totals := ⟨0, 0, 0, 0, 0⟩

def ChkError : Int := 0
def ChkFound : Int := 1
def ChkMissing : Int := 2

/-- The body of the loop of `updateStats`, for one value received. -/
def updateStat (totals : Totals) (fileStatus : Int) : Totals :=
  let totals := { totals with fileCount := totals.fileCount + 1 }
  if fileStatus = ChkFound then { totals with found := totals.found + 1 }
  else if fileStatus = ChkMissing then { totals with missing := totals.missing + 1 }
  else if fileStatus = ChkError then { totals with errors := totals.errors + 1 }
  else totals

/-- The function `updateStats(update)`: every value received from the channel. -/
def updateStats (totals : Totals) (update : List Int) : Totals :=
  update.foldl updateStat totals

/-- The function `checksumFile(name)`, which renders with `hex.EncodeToString`. -/
def checksumFile (md5 : String → List (Fin 256)) (fs : FS) (name : String) :
    String × Option IOErr :=
  checksumFileWith hexEncodeToString md5 fs name

/-- A line written to standard output. -/
inductive Line where
  | err (e : IOErr)
  | path (p : String)
deriving DecidableEq, Repr

/-- What `validateFiles` has done so far: the lines printed and the values
sent on the `stats` channel. -/
structure Sent where
  out : List Line
  stats : List Int
deriving DecidableEq, Repr

/-- One iteration of the loop of `validateFiles`, for the path `path`. -/
def validateFile (md5 : String → List (Fin 256)) (fs : FS) (hashes : String → Bool)
    (acc : Sent) (path : String) : Sent :=
  match checksumFile md5 fs path with
  | (_, some err) => ⟨acc.out ++ [.err err], acc.stats ++ [ChkError]⟩
  | (s, none) =>
    if hashes s then ⟨acc.out, acc.stats ++ [ChkFound]⟩
    else ⟨acc.out ++ [.path path], acc.stats ++ [ChkMissing]⟩

/-- The function `validateFiles`: every path received from the channel. -/
def validateFiles (md5 : String → List (Fin 256)) (fs : FS) (hashes : String → Bool)
    (source : List String) : Sent :=
  source.foldl (validateFile md5 fs hashes) ⟨[], []⟩

/-- The loop of `readchecksumfile`, entered with the result of the last
`r.Read()`; it ends with the map and the error that stopped it. Every turn
takes a record off the reader, so `fuel` beyond the number of records left is
never used up. -/
def readLoop : Nat → Reader → (String → Bool) → List String × Option GoErr →
    Option ((String → Bool) × Option GoErr)
  | 0, _, _, _ => none
  | fuel + 1, r, result, (rec, err) =>
    if err = none then
      let result := if rec.length > 0 then fun k => if k = rec.headD "" then true else result k
                    else result
      readLoop fuel r.Read.2 result r.Read.1
    else some (result, err)

/-- The function `readchecksumfile(name)`; `none` only if the loop ran out of
fuel. -/
def readchecksumfile (lex : String → List RawRecord) (fs : FS) (name : String) :
    Option ((String → Bool) × Option GoErr) :=
  let result : String → Bool := fun _ => false
  match osOpen fs name with
  | .error err => some (result, some (.os err))
  | .ok f =>
    let r := NewReader lex f
    match readLoop (r.input.length + 2) r.Read.2 result r.Read.1 with
    | none => none
    | some (result, err) => some (result, if err = some .EOF then none else err)

/-- The summary `main` prints after the workers are done. -/
def summary (totals : Totals) : String :=
  toString totals.fileCount ++ " files (" ++ toString totals.byteCount ++ " bytes) scanned: "
    ++ toString totals.found ++ " found, " ++ toString totals.missing ++ " missing, "
    ++ toString totals.errors ++ " errors\n"

end ListMissing

/-! ## A small file system for examples -/

/-- A digest function for examples: sixteen bytes, all equal to the length of
the content modulo 256. -/
def toyMd5 (content : String) : List (Fin 256) :=
  List.replicate 16 (Fin.ofNat content.length)

/-- A file system given by a list of entries; new files can be created when
`writableDir` is set, the umask is `022`, and no write hits a fault. -/
def mkFS (entries : List (String × Node)) (writableDir : Bool) : FS :=
  ⟨fun p => entries.lookup p, fun _ => writableDir, 0o022, fun _ => none⟩

/-- Lowercase hexadecimal as the specification words it: for every byte the
digit of its high half, then the digit of its low half, from `0-9a-f`. -/
def lowerHex (b : List (Fin 256)) : String :=
  ⟨b.flatMap fun c => [Nat.digitChar (c.val / 16), Nat.digitChar (c.val % 16)]⟩

/-- An example file system: a readable file `a` holding `hello`. -/
def fsHello : FS := mkFS [("a", .file "hello" true true false)] true

/-- An example file system: the readable file `a` holding `hello`, in a
directory where no file can be created. -/
def fsReadOnly : FS := mkFS [("a", .file "hello" true true false)] false

/-- An example file system: the readable file `a` holding `hello`, on a disk
that is full: a new file can be created but no byte can be written to it. -/
def fsDiskFull : FS :=
  { mkFS [("a", .file "hello" true true false)] true with writeFault := fun _ => some 0 }

/-- An example file system: the readable file `a` holding `hello`, with a
umask that takes the read permission of the owner away from new files. -/
def fsUmask : FS :=
  { mkFS [("a", .file "hello" true true false)] true with umask := 0o477 }

/-- An example file system: `a` holding `hello`, and a sidecar `a.md5` holding
the digest of some other content. -/
def fsConflict : FS :=
  mkFS [("a", .file "hello" true true false),
    ("a.md5", .file "07070707070707070707070707070707" true false false)] true

/-- An example file system: `a` with its matching sidecar, `b` whose sidecar
`b.md5` is a directory, and `c` without a sidecar. -/
def fsMixed : FS :=
  mkFS [("a", .file "hello" true true false),
    ("a.md5", .file "05050505050505050505050505050505" true false false),
    ("b", .file "hello" true true false), ("b.md5", .dir),
    ("c", .file "hello" true true false)] false

/-- An example file system: a manifest `m` whose first row has two columns
and whose second row has one. -/
def fsRagged : FS := mkFS [("m", .file "d1\tx\nd2\n" true false false)] false

/-- An example file system: a manifest `m` of three rows with two columns
each, the first digest twice, and a blank line. -/
def fsManifest : FS := mkFS [("m", .file "d1\tx\n\nd2\ty\nd1\tz\n" true false false)] false

/-- An example tree for `list-missing.go`: the files `A`, `B` and `C`, of
different lengths and so with different digests under `toyMd5`. -/
def fsABC : FS :=
  mkFS [("A", .file "a" true true false), ("B", .file "bb" true true false),
    ("C", .file "ccc" true true false)] false

/-- An example reference set: the digests of `A` and `B` of `fsABC`. -/
def hashesAB (s : String) : Bool :=
  s = "01010101010101010101010101010101" || s = "02020202020202020202020202020202"

/-! ## The totals -/

theorem cs_updateStats_fileCount (t : Checksum.Totals) (what : Int) :
    (Checksum.updateStats t what).fileCount = t.fileCount + 1 := by
  unfold Checksum.updateStats
  split_ifs <;> rfl

theorem cs_updateStats_byteCount (t : Checksum.Totals) (what : Int) :
    (Checksum.updateStats t what).byteCount = t.byteCount := by
  unfold Checksum.updateStats
  split_ifs <;> rfl

theorem cs_updateStats_sum (t : Checksum.Totals) (what : Int)
    (hw : what = Checksum.ChkMatch ∨ what = Checksum.ChkAdd ∨ what = Checksum.ChkConflict ∨
      what = Checksum.ChkError)
    (ht : t.matches_ + t.added + t.conflicts + t.errors = t.fileCount) :
    (Checksum.updateStats t what).matches_ + (Checksum.updateStats t what).added +
      (Checksum.updateStats t what).conflicts + (Checksum.updateStats t what).errors =
      (Checksum.updateStats t what).fileCount := by
  unfold Checksum.updateStats
  rcases hw with h | h | h | h <;> subst h <;>
    simp [Checksum.ChkMatch, Checksum.ChkAdd, Checksum.ChkConflict, Checksum.ChkError] <;> omega

theorem cs_foldl_updateStats_sum (l : List Int) :
    ∀ t : Checksum.Totals,
      (∀ w ∈ l, w = Checksum.ChkMatch ∨ w = Checksum.ChkAdd ∨ w = Checksum.ChkConflict ∨
        w = Checksum.ChkError) →
      t.matches_ + t.added + t.conflicts + t.errors = t.fileCount →
      (l.foldl Checksum.updateStats t).matches_ + (l.foldl Checksum.updateStats t).added +
        (l.foldl Checksum.updateStats t).conflicts + (l.foldl Checksum.updateStats t).errors =
        (l.foldl Checksum.updateStats t).fileCount := by
  induction l with
  | nil => intro t _ ht; simpa using ht
  | cons w l ih =>
    intro t hl ht
    rw [List.foldl_cons]
    exact ih _ (fun v hv => hl v (List.mem_cons_of_mem _ hv))
      (cs_updateStats_sum t w (hl w (List.mem_cons_self _ _)) ht)

theorem cs_updateStats_comm (t : Checksum.Totals) (a b : Int) :
    Checksum.updateStats (Checksum.updateStats t a) b =
      Checksum.updateStats (Checksum.updateStats t b) a := by
  unfold Checksum.updateStats
  split_ifs <;> simp_all

theorem lm_updateStat_byteCount (t : ListMissing.Totals) (fileStatus : Int) :
    (ListMissing.updateStat t fileStatus).byteCount = t.byteCount := by
  unfold ListMissing.updateStat
  split_ifs <;> rfl

theorem lm_updateStats_byteCount (update : List Int) :
    ∀ t : ListMissing.Totals, (ListMissing.updateStats t update).byteCount = t.byteCount := by
  induction update with
  | nil => intro t; rfl
  | cons w l ih =>
    intro t
    show (ListMissing.updateStats (ListMissing.updateStat t w) l).byteCount = _
    rw [ih, lm_updateStat_byteCount]

theorem lm_updateStat_sum (t : ListMissing.Totals) (fileStatus : Int)
    (hw : fileStatus = ListMissing.ChkFound ∨ fileStatus = ListMissing.ChkMissing ∨
      fileStatus = ListMissing.ChkError)
    (ht : t.found + t.missing + t.errors = t.fileCount) :
    (ListMissing.updateStat t fileStatus).found + (ListMissing.updateStat t fileStatus).missing +
      (ListMissing.updateStat t fileStatus).errors =
      (ListMissing.updateStat t fileStatus).fileCount := by
  unfold ListMissing.updateStat
  rcases hw with h | h | h <;> subst h <;>
    simp [ListMissing.ChkFound, ListMissing.ChkMissing, ListMissing.ChkError] <;> omega

theorem lm_updateStats_sum (update : List Int) :
    ∀ t : ListMissing.Totals,
      (∀ w ∈ update, w = ListMissing.ChkFound ∨ w = ListMissing.ChkMissing ∨
        w = ListMissing.ChkError) →
      t.found + t.missing + t.errors = t.fileCount →
      (ListMissing.updateStats t update).found + (ListMissing.updateStats t update).missing +
        (ListMissing.updateStats t update).errors =
        (ListMissing.updateStats t update).fileCount := by
  induction update with
  | nil => intro t _ ht; simpa [ListMissing.updateStats] using ht
  | cons w l ih =>
    intro t hl ht
    show (ListMissing.updateStats (ListMissing.updateStat t w) l).found + _ + _ = _
    exact ih _ (fun v hv => hl v (List.mem_cons_of_mem _ hv))
      (lm_updateStat_sum t w (hl w (List.mem_cons_self _ _)) ht)

theorem lm_updateStat_comm (t : ListMissing.Totals) (a b : Int) :
    ListMissing.updateStat (ListMissing.updateStat t a) b =
      ListMissing.updateStat (ListMissing.updateStat t b) a := by
  unfold ListMissing.updateStat
  split_ifs <;> simp_all

/-- C1. Completeness invariant: starting from all-zero totals, after
`updateStats` has recorded any list of outcome kinds of its program, the
per-outcome counters sum to `fileCount`: `matches+added+conflicts+errors` in
`checksum.go` and `found+missing+errors` in `list-missing.go`. -/
theorem completeness_invariant (whats : List Int) (update : List Int)
    (hwhats : ∀ w ∈ whats, w = Checksum.ChkMatch ∨ w = Checksum.ChkAdd ∨
      w = Checksum.ChkConflict ∨ w = Checksum.ChkError)
    (hupdate : ∀ w ∈ update, w = ListMissing.ChkFound ∨ w = ListMissing.ChkMissing ∨
      w = ListMissing.ChkError) :
    ((whats.foldl Checksum.updateStats Checksum.Totals.zero).matches_ +
        (whats.foldl Checksum.updateStats Checksum.Totals.zero).added +
        (whats.foldl Checksum.updateStats Checksum.Totals.zero).conflicts +
        (whats.foldl Checksum.updateStats Checksum.Totals.zero).errors =
      (whats.foldl Checksum.updateStats Checksum.Totals.zero).fileCount) ∧
    ((ListMissing.updateStats ListMissing.Totals.zero update).found +
        (ListMissing.updateStats ListMissing.Totals.zero update).missing +
        (ListMissing.updateStats ListMissing.Totals.zero update).errors =
      (ListMissing.updateStats ListMissing.Totals.zero update).fileCount) :=
  ⟨cs_foldl_updateStats_sum whats _ hwhats rfl,
    lm_updateStats_sum update _ hupdate rfl⟩

theorem completeness_invariant_witness :
    (∀ w ∈ [(1 : Int), 2, 2, 3, 4, 1], w = Checksum.ChkMatch ∨ w = Checksum.ChkAdd ∨
      w = Checksum.ChkConflict ∨ w = Checksum.ChkError) ∧
    (∀ w ∈ [(1 : Int), 2, 0, 1], w = ListMissing.ChkFound ∨ w = ListMissing.ChkMissing ∨
      w = ListMissing.ChkError) ∧
    (([(1 : Int), 2, 2, 3, 4, 1].foldl Checksum.updateStats Checksum.Totals.zero).fileCount = 6) ∧
    ((([(1 : Int), 2, 2, 3, 4, 1].foldl Checksum.updateStats Checksum.Totals.zero).matches_ +
        ([(1 : Int), 2, 2, 3, 4, 1].foldl Checksum.updateStats Checksum.Totals.zero).added +
        ([(1 : Int), 2, 2, 3, 4, 1].foldl Checksum.updateStats Checksum.Totals.zero).conflicts +
        ([(1 : Int), 2, 2, 3, 4, 1].foldl Checksum.updateStats Checksum.Totals.zero).errors =
      ([(1 : Int), 2, 2, 3, 4, 1].foldl Checksum.updateStats Checksum.Totals.zero).fileCount) ∧
    ((ListMissing.updateStats ListMissing.Totals.zero [1, 2, 0, 1]).found +
        (ListMissing.updateStats ListMissing.Totals.zero [1, 2, 0, 1]).missing +
        (ListMissing.updateStats ListMissing.Totals.zero [1, 2, 0, 1]).errors =
      (ListMissing.updateStats ListMissing.Totals.zero [1, 2, 0, 1]).fileCount)) :=
  ⟨by decide, by decide, by decide,
    completeness_invariant [1, 2, 2, 3, 4, 1] [1, 2, 0, 1] (by decide) (by decide)⟩

/-- C9. Determinism of totals: recording a list of outcomes and recording any
permutation of it, from the same starting totals, leaves the same totals (so
the same `fileCount` and the same per-outcome counts), in both programs. -/
theorem totals_permutation_invariant (t : Checksum.Totals) (u : ListMissing.Totals)
    (l l' : List Int) (hperm : l.Perm l') :
    l.foldl Checksum.updateStats t = l'.foldl Checksum.updateStats t ∧
    ListMissing.updateStats u l = ListMissing.updateStats u l' :=
  ⟨hperm.foldl_eq' (fun x _ y _ z => cs_updateStats_comm z x y) t,
    hperm.foldl_eq' (fun x _ y _ z => lm_updateStat_comm z x y) u⟩

theorem totals_permutation_invariant_witness :
    [(1 : Int), 2, 3, 0].Perm [3, 0, 2, 1] ∧
    ([(1 : Int), 2, 3, 0].foldl Checksum.updateStats Checksum.Totals.zero =
        [(3 : Int), 0, 2, 1].foldl Checksum.updateStats Checksum.Totals.zero ∧
      ListMissing.updateStats ListMissing.Totals.zero [1, 2, 3, 0] =
        ListMissing.updateStats ListMissing.Totals.zero [3, 0, 2, 1]) :=
  ⟨by decide, totals_permutation_invariant _ _ _ _ (by decide)⟩

/-! ## The walk -/

theorem ExtLoop_suffix (windows : Bool) (path : List Char) (i : Nat) :
    Checksum.ExtLoop windows path i <:+ path := by
  induction i with
  | zero => exact List.nil_suffix
  | succ i ih =>
    unfold Checksum.ExtLoop
    split_ifs
    · exact List.nil_suffix
    · exact List.drop_suffix _ _
    · exact ih

theorem ExtLoop_md5 (windows : Bool) (stem : List Char) :
    Checksum.ExtLoop windows (stem ++ ['.', 'm', 'd', '5']) (stem.length + 4) =
      ['.', 'm', 'd', '5'] := by
  have h3 : (stem ++ ['.', 'm', 'd', '5']).getD (stem.length + 3) '/' = '5' := by
    rw [List.getD_append_right _ _ _ _ (by omega)]; simp
  have h2 : (stem ++ ['.', 'm', 'd', '5']).getD (stem.length + 2) '/' = 'd' := by
    rw [List.getD_append_right _ _ _ _ (by omega)]; simp
  have h1 : (stem ++ ['.', 'm', 'd', '5']).getD (stem.length + 1) '/' = 'm' := by
    rw [List.getD_append_right _ _ _ _ (by omega)]; simp
  have h0 : (stem ++ ['.', 'm', 'd', '5']).getD stem.length '/' = '.' := by
    rw [List.getD_append_right _ _ _ _ (by omega)]; simp
  have sep : ∀ c : Char, c = '5' ∨ c = 'd' ∨ c = 'm' ∨ c = '.' →
      Checksum.IsPathSeparator windows c = false := by
    intro c hc
    rcases hc with h | h | h | h <;> subst h <;> cases windows <;> decide
  rw [Checksum.ExtLoop, h3, sep _ (by simp), Checksum.ExtLoop, h2, sep _ (by simp),
    Checksum.ExtLoop, h1, sep _ (by simp), Checksum.ExtLoop, h0, sep _ (by simp)]
  simp

theorem Ext_eq_md5_iff (windows : Bool) (path : String) :
    Checksum.Ext windows path = ".md5" ↔ ∃ stem : String, path = stem ++ ".md5" := by
  constructor
  · intro h
    have hs := ExtLoop_suffix windows path.data path.data.length
    have hd : Checksum.ExtLoop windows path.data path.data.length = ".md5".data := by
      have := congrArg String.data h
      simpa [Checksum.Ext] using this
    rw [hd] at hs
    obtain ⟨stem, hstem⟩ := hs
    refine ⟨⟨stem⟩, ?_⟩
    apply String.ext
    rw [String.data_append, ← hstem]
  · rintro ⟨stem, rfl⟩
    apply String.ext
    have : (stem ++ ".md5").data = stem.data ++ ['.', 'm', 'd', '5'] := by
      rw [String.data_append]
    simp only [Checksum.Ext]
    rw [this, List.length_append]
    exact ExtLoop_md5 windows stem.data

/-- C6. Sidecar exclusion: `checksumFileWalk` puts the path on the channel if
and only if the walk error is nil, the entry is a regular file and the path
does not end in ".md5"; otherwise the channel is left as it was, so a path
ending in ".md5" is never put on it; and `filepath.Ext(path) != ".md5"` says
exactly that the path does not end in ".md5". -/
theorem checksumFileWalk_enqueues_iff (windows : Bool) (fileList : List String)
    (path : String) (info : Checksum.FileInfo) (err : Option IOErr) :
    (Checksum.checksumFileWalk windows fileList path info err = fileList ++ [path] ↔
      (err = none ∧ info.isRegular = true ∧ ¬ ∃ stem : String, path = stem ++ ".md5")) ∧
    (Checksum.checksumFileWalk windows fileList path info err = fileList ↔
      ¬ (err = none ∧ info.isRegular = true ∧ ¬ ∃ stem : String, path = stem ++ ".md5")) ∧
    ((∃ stem : String, path = stem ++ ".md5") →
      Checksum.checksumFileWalk windows fileList path info err = fileList) ∧
    (Checksum.Ext windows path ≠ ".md5" ↔ ¬ ∃ stem : String, path = stem ++ ".md5") := by
  have hne : Checksum.Ext windows path ≠ ".md5" ↔ ¬ ∃ stem : String, path = stem ++ ".md5" :=
    not_congr (Ext_eq_md5_iff windows path)
  have hcond : (err = none ∧ info.isRegular = true ∧ Checksum.Ext windows path ≠ ".md5") ↔
      (err = none ∧ info.isRegular = true ∧ ¬ ∃ stem : String, path = stem ++ ".md5") :=
    and_congr_right fun _ => and_congr_right fun _ => hne
  unfold Checksum.checksumFileWalk
  by_cases h : err = none ∧ info.isRegular = true ∧ Checksum.Ext windows path ≠ ".md5"
  · have hq := hcond.mp h
    rw [if_pos h]
    refine ⟨⟨fun _ => hq, fun _ => rfl⟩, ⟨fun hl => ?_, fun hn => absurd hq hn⟩,
      fun hstem => absurd hstem hq.2.2, hne⟩
    simp at hl
  · have hq : ¬ (err = none ∧ info.isRegular = true ∧
        ¬ ∃ stem : String, path = stem ++ ".md5") := fun hq => h (hcond.mpr hq)
    rw [if_neg h]
    refine ⟨⟨fun hl => ?_, fun hn => absurd hn hq⟩, ⟨fun _ => hq, fun _ => rfl⟩,
      fun _ => rfl, hne⟩
    simp at hl

/-! ## The digest -/

theorem digitAt_lt_16 : ∀ i : Fin 16,
    digitAt ldigits i.val = Nat.digitChar i.val ∧ digitAt hextable i.val = Nat.digitChar i.val ∧
      Nat.digitChar i.val ∈ "0123456789abcdef".data := by
  decide

theorem byte_halves (c : Fin 256) :
    c.val >>> 4 = c.val / 16 ∧ c.val &&& 0xF = c.val % 16 ∧ c.val / 16 < 16 ∧ c.val % 16 < 16 := by
  refine ⟨by rw [Nat.shiftRight_eq_div_pow], Nat.and_pow_two_sub_one_eq_mod c.val 4, ?_, ?_⟩
  · have := c.isLt; omega
  · omega

theorem sprintfx_eq_lowerHex (b : List (Fin 256)) : sprintfx b = lowerHex b := by
  unfold sprintfx lowerHex
  congr 1
  apply List.flatMap_congr
  intro c _
  obtain ⟨h1, h2, h3, h4⟩ := byte_halves c
  rw [h1, h2, (digitAt_lt_16 ⟨_, h3⟩).1, (digitAt_lt_16 ⟨_, h4⟩).1]

theorem hexEncodeToString_eq_lowerHex (b : List (Fin 256)) :
    hexEncodeToString b = lowerHex b := by
  unfold hexEncodeToString lowerHex
  congr 1
  apply List.flatMap_congr
  intro c _
  obtain ⟨h1, h2, h3, h4⟩ := byte_halves c
  rw [h1, h2, (digitAt_lt_16 ⟨_, h3⟩).2.1, (digitAt_lt_16 ⟨_, h4⟩).2.1]

theorem lowerHex_length (b : List (Fin 256)) : (lowerHex b).length = 2 * b.length := by
  unfold lowerHex
  show (b.flatMap _).length = _
  induction b with
  | nil => rfl
  | cons c b ih => simp only [List.flatMap_cons, List.length_append, List.length_cons, ih,
      List.length_nil]; omega

theorem lowerHex_chars (b : List (Fin 256)) :
    ∀ ch ∈ (lowerHex b).data, ch ∈ "0123456789abcdef".data := by
  intro ch hch
  simp only [lowerHex, List.mem_flatMap] at hch
  obtain ⟨c, _, hc⟩ := hch
  obtain ⟨_, _, h3, h4⟩ := byte_halves c
  simp only [List.mem_cons, List.mem_singleton, List.not_mem_nil, or_false] at hc
  rcases hc with h | h
  · rw [h]; exact (digitAt_lt_16 ⟨_, h3⟩).2.2
  · rw [h]; exact (digitAt_lt_16 ⟨_, h4⟩).2.2

theorem checksumFileWith_ok (render : List (Fin 256) → String) (md5 : String → List (Fin 256))
    (fs : FS) (name content : String) (h : ioutilReadFile fs name = .ok content) :
    checksumFileWith render md5 fs name = (render (md5 content), none) := by
  unfold ioutilReadFile at h
  unfold checksumFileWith
  cases ho : osOpen fs name with
  | error e => rw [ho] at h; cases h
  | ok f =>
    rw [ho] at h
    simp only at h
    subst h
    rfl

theorem checksumFileWith_err (render : List (Fin 256) → String) (md5 : String → List (Fin 256))
    (fs : FS) (name : String) (e : IOErr) (h : (checksumFileWith render md5 fs name).2 = some e) :
    (checksumFileWith render md5 fs name).1 = "" := by
  unfold checksumFileWith at h ⊢
  cases ho : osOpen fs name with
  | error e => rfl
  | ok f =>
    rw [ho] at h
    cases f with
    | error e => rfl
    | ok content => cases h

/-- C10. Digest rendering: when MD5 sums are 16 bytes long, for every file
whose content is read without error `checksumFile` of either program returns,
with a nil error, the lowercase hexadecimal rendering of the MD5 sum of the
content, a string of exactly 32 characters each in `0-9a-f`; and whenever
either `checksumFile` returns a non-nil error, the digest it returns is the
empty string. -/
theorem checksumFile_digest (md5 : String → List (Fin 256)) (fs : FS) (name : String)
    (hsize : ∀ content, (md5 content).length = 16) :
    (∀ content, ioutilReadFile fs name = .ok content →
      Checksum.checksumFile md5 fs name = (lowerHex (md5 content), none) ∧
      ListMissing.checksumFile md5 fs name = (lowerHex (md5 content), none) ∧
      (lowerHex (md5 content)).length = 32 ∧
      ∀ ch ∈ (lowerHex (md5 content)).data, ch ∈ "0123456789abcdef".data) ∧
    (∀ e, (Checksum.checksumFile md5 fs name).2 = some e →
      (Checksum.checksumFile md5 fs name).1 = "") ∧
    (∀ e, (ListMissing.checksumFile md5 fs name).2 = some e →
      (ListMissing.checksumFile md5 fs name).1 = "") := by
  refine ⟨fun content h => ⟨?_, ?_, ?_, lowerHex_chars _⟩,
    fun e h => checksumFileWith_err _ md5 fs name e h,
    fun e h => checksumFileWith_err _ md5 fs name e h⟩
  · rw [← sprintfx_eq_lowerHex]; exact checksumFileWith_ok _ md5 fs name content h
  · rw [← hexEncodeToString_eq_lowerHex]; exact checksumFileWith_ok _ md5 fs name content h
  · rw [lowerHex_length, hsize]

theorem checksumFile_digest_witness :
    (∀ content, (toyMd5 content).length = 16) ∧
    ioutilReadFile fsHello "a" = .ok "hello" ∧
    lowerHex (toyMd5 "hello") = "05050505050505050505050505050505" ∧
    (Checksum.checksumFile toyMd5 fsHello "missing").2 = some .notExist ∧
    ((∀ content, ioutilReadFile fsHello "a" = .ok content →
        Checksum.checksumFile toyMd5 fsHello "a" = (lowerHex (toyMd5 content), none) ∧
        ListMissing.checksumFile toyMd5 fsHello "a" = (lowerHex (toyMd5 content), none) ∧
        (lowerHex (toyMd5 content)).length = 32 ∧
        ∀ ch ∈ (lowerHex (toyMd5 content)).data, ch ∈ "0123456789abcdef".data) ∧
      (∀ e, (Checksum.checksumFile toyMd5 fsHello "a").2 = some e →
        (Checksum.checksumFile toyMd5 fsHello "a").1 = "") ∧
      (∀ e, (ListMissing.checksumFile toyMd5 fsHello "a").2 = some e →
        (ListMissing.checksumFile toyMd5 fsHello "a").1 = "")) :=
  ⟨fun _ => List.length_replicate _ _, rfl, by decide, by decide,
    checksumFile_digest toyMd5 fsHello "a" fun _ => List.length_replicate _ _⟩

/-! ## The sidecar -/

theorem path_ne_sidecar (path : String) : path ≠ path ++ ".md5" := by
  intro h
  have := congrArg String.length h
  rw [String.length_append] at this
  have h4 : ".md5".length = 4 := by decide
  omega

theorem validateFile_add (md5 : String → List (Fin 256)) (fs : FS) (path s : String)
    (hs : Checksum.checksumFile md5 fs path = (s, none))
    (hnone : fs.node (path ++ ".md5") = none) :
    Checksum.validateFile md5 fs path =
      ⟨[.added s path], (ioutilWriteFile fs (path ++ ".md5") s 0o444).1, Checksum.ChkAdd⟩ := by
  simp [Checksum.validateFile, hs, osStat, hnone]

theorem validateFile_read (md5 : String → List (Fin 256)) (fs : FS) (path s : String)
    (hs : Checksum.checksumFile md5 fs path = (s, none))
    (hsome : fs.node (path ++ ".md5") ≠ none) :
    Checksum.validateFile md5 fs path =
      match ioutilReadFile fs (path ++ ".md5") with
      | .error err => ⟨[.sidecarErr err path], fs, Checksum.ChkError⟩
      | .ok storedChecksum =>
        if s ≠ storedChecksum then
          ⟨[.conflict s storedChecksum path], fs, Checksum.ChkConflict⟩
        else ⟨[], fs, Checksum.ChkMatch⟩ := by
  cases hn : fs.node (path ++ ".md5") with
  | none => exact absurd hn hsome
  | some n => simp [Checksum.validateFile, hs, osStat, hn]

theorem readFile_ok_node (fs : FS) (name content : String)
    (h : ioutilReadFile fs name = .ok content) : fs.node name ≠ none := by
  intro hn
  simp [ioutilReadFile, osOpen, hn] at h

/-- C3. Classification by the sidecar: for a file that `checksumFile` hashed
to `s` without error, the outcome is one of the four kinds, and it is Added
when there is no entry at `path + ".md5"` (whether or not the sidecar can
then be written), Error when there is an entry that cannot be read, Match
when the bytes read equal `s` exactly, and Conflict when they differ. -/
theorem validateFile_classifies (md5 : String → List (Fin 256)) (fs : FS) (path s : String)
    (hs : Checksum.checksumFile md5 fs path = (s, none)) :
    (fs.node (path ++ ".md5") = none →
      (Checksum.validateFile md5 fs path).what = Checksum.ChkAdd) ∧
    (fs.node (path ++ ".md5") ≠ none →
      ∀ e, ioutilReadFile fs (path ++ ".md5") = .error e →
        (Checksum.validateFile md5 fs path).what = Checksum.ChkError) ∧
    (ioutilReadFile fs (path ++ ".md5") = .ok s →
      (Checksum.validateFile md5 fs path).what = Checksum.ChkMatch) ∧
    (∀ storedChecksum, ioutilReadFile fs (path ++ ".md5") = .ok storedChecksum →
      storedChecksum ≠ s →
        (Checksum.validateFile md5 fs path).what = Checksum.ChkConflict) ∧
    ((Checksum.validateFile md5 fs path).what = Checksum.ChkMatch ∨
      (Checksum.validateFile md5 fs path).what = Checksum.ChkAdd ∨
      (Checksum.validateFile md5 fs path).what = Checksum.ChkConflict ∨
      (Checksum.validateFile md5 fs path).what = Checksum.ChkError) := by
  refine ⟨fun hnone => ?_, fun hsome e he => ?_, fun hok => ?_, fun stored hok hne => ?_, ?_⟩
  · rw [validateFile_add md5 fs path s hs hnone]
  · rw [validateFile_read md5 fs path s hs hsome, he]
  · rw [validateFile_read md5 fs path s hs (readFile_ok_node fs _ _ hok), hok]
    simp
  · rw [validateFile_read md5 fs path s hs (readFile_ok_node fs _ _ hok), hok]
    simp [Ne.symm hne]
  · by_cases hn : fs.node (path ++ ".md5") = none
    · rw [validateFile_add md5 fs path s hs hn]; simp
    · rw [validateFile_read md5 fs path s hs hn]
      cases ioutilReadFile fs (path ++ ".md5") with
      | error e => simp
      | ok stored =>
        by_cases hss : s = stored
        · simp [hss]
        · simp [hss]

theorem validateFile_classifies_witness :
    Checksum.checksumFile toyMd5 fsMixed "c" = ("05050505050505050505050505050505", none) ∧
    (ioutilWriteFile fsMixed "c.md5" "05050505050505050505050505050505" 0o444).2 =
      some .permission ∧
    (Checksum.validateFile toyMd5 fsMixed "c").what = Checksum.ChkAdd ∧
    (Checksum.validateFile toyMd5 fsMixed "b").what = Checksum.ChkError ∧
    (Checksum.validateFile toyMd5 fsMixed "a").what = Checksum.ChkMatch ∧
    (Checksum.validateFile toyMd5 fsConflict "a").what = Checksum.ChkConflict ∧
    ((fsMixed.node ("c" ++ ".md5") = none →
        (Checksum.validateFile toyMd5 fsMixed "c").what = Checksum.ChkAdd) ∧
      (fsMixed.node ("c" ++ ".md5") ≠ none →
        ∀ e, ioutilReadFile fsMixed ("c" ++ ".md5") = .error e →
          (Checksum.validateFile toyMd5 fsMixed "c").what = Checksum.ChkError) ∧
      (ioutilReadFile fsMixed ("c" ++ ".md5") = .ok "05050505050505050505050505050505" →
        (Checksum.validateFile toyMd5 fsMixed "c").what = Checksum.ChkMatch) ∧
      (∀ storedChecksum, ioutilReadFile fsMixed ("c" ++ ".md5") = .ok storedChecksum →
        storedChecksum ≠ "05050505050505050505050505050505" →
          (Checksum.validateFile toyMd5 fsMixed "c").what = Checksum.ChkConflict) ∧
      ((Checksum.validateFile toyMd5 fsMixed "c").what = Checksum.ChkMatch ∨
        (Checksum.validateFile toyMd5 fsMixed "c").what = Checksum.ChkAdd ∨
        (Checksum.validateFile toyMd5 fsMixed "c").what = Checksum.ChkConflict ∨
        (Checksum.validateFile toyMd5 fsMixed "c").what = Checksum.ChkError)) :=
  ⟨by decide, by decide, by decide, by decide, by decide, by decide,
    validateFile_classifies toyMd5 fsMixed "c" "05050505050505050505050505050505" (by decide)⟩

theorem validateFile_keeps_sidecar (md5 : String → List (Fin 256)) (fs : FS) (q : String)
    (hq : fs.node (q ++ ".md5") ≠ none) : (Checksum.validateFile md5 fs q).fs.node = fs.node := by
  cases hc : Checksum.checksumFile md5 fs q with
  | mk s err =>
    cases err with
    | some e => simp [Checksum.validateFile, hc]
    | none =>
      rw [validateFile_read md5 fs q s hc hq]
      cases ioutilReadFile fs (q ++ ".md5") with
      | error e => rfl
      | ok stored =>
        by_cases hss : s = stored
        · simp [hss]
        · simp [hss]

/-- C5. Conflict detection without repair: when the sidecar of a file reads
as `D1` and the file hashes to `D2 ≠ D1`, processing the file adds exactly one
to `conflicts` and to `fileCount`, leaves `matches`, `added` and `errors` as
they were, prints the one conflict line, and leaves the file system, hence
the sidecar with content `D1`, unchanged; and processing any file that has
an entry at its sidecar path leaves every entry of the file system as it
was. -/
theorem conflict_without_repair (md5 : String → List (Fin 256)) (st : Checksum.State)
    (path D1 D2 : String)
    (hD2 : Checksum.checksumFile md5 st.fs path = (D2, none))
    (hD1 : ioutilReadFile st.fs (path ++ ".md5") = .ok D1)
    (hne : D2 ≠ D1) :
    (Checksum.processFile md5 st path).totals.conflicts = st.totals.conflicts + 1 ∧
    (Checksum.processFile md5 st path).totals.fileCount = st.totals.fileCount + 1 ∧
    (Checksum.processFile md5 st path).totals.matches_ = st.totals.matches_ ∧
    (Checksum.processFile md5 st path).totals.added = st.totals.added ∧
    (Checksum.processFile md5 st path).totals.errors = st.totals.errors ∧
    (Checksum.processFile md5 st path).out = st.out ++ [.conflict D2 D1 path] ∧
    (Checksum.processFile md5 st path).fs.node = st.fs.node ∧
    ioutilReadFile (Checksum.processFile md5 st path).fs (path ++ ".md5") = .ok D1 ∧
    (∀ q, st.fs.node (q ++ ".md5") ≠ none →
      (Checksum.processFile md5 st q).fs.node = st.fs.node) := by
  have hv : Checksum.validateFile md5 st.fs path =
      ⟨[.conflict D2 D1 path], st.fs, Checksum.ChkConflict⟩ := by
    rw [validateFile_read md5 st.fs path D2 hD2 (readFile_ok_node st.fs _ _ hD1), hD1]
    simp [hne]
  have hp : Checksum.processFile md5 st path =
      ⟨st.fs, Checksum.updateStats st.totals Checksum.ChkConflict,
        st.out ++ [.conflict D2 D1 path]⟩ := by
    simp only [Checksum.processFile, hv]
  rw [hp]
  refine ⟨?_, ?_, ?_, ?_, ?_, rfl, rfl, hD1,
    fun q hq => validateFile_keeps_sidecar md5 st.fs q hq⟩ <;>
    simp [Checksum.updateStats, Checksum.ChkConflict, Checksum.ChkMatch, Checksum.ChkAdd]

theorem conflict_without_repair_witness :
    Checksum.checksumFile toyMd5 fsConflict "a" = ("05050505050505050505050505050505", none) ∧
    ioutilReadFile fsConflict ("a" ++ ".md5") = .ok "07070707070707070707070707070707" ∧
    "05050505050505050505050505050505" ≠ "07070707070707070707070707070707" ∧
    (Checksum.processFile toyMd5 ⟨fsConflict, ⟨0, 3, 1, 1, 1, 0⟩, []⟩ "a").totals =
      ⟨0, 4, 1, 1, 2, 0⟩ ∧
    ((Checksum.processFile toyMd5 ⟨fsConflict, ⟨0, 3, 1, 1, 1, 0⟩, []⟩ "a").totals.conflicts =
        1 + 1 ∧
      (Checksum.processFile toyMd5 ⟨fsConflict, ⟨0, 3, 1, 1, 1, 0⟩, []⟩ "a").totals.fileCount =
        3 + 1 ∧
      (Checksum.processFile toyMd5 ⟨fsConflict, ⟨0, 3, 1, 1, 1, 0⟩, []⟩ "a").totals.matches_ = 1 ∧
      (Checksum.processFile toyMd5 ⟨fsConflict, ⟨0, 3, 1, 1, 1, 0⟩, []⟩ "a").totals.added = 1 ∧
      (Checksum.processFile toyMd5 ⟨fsConflict, ⟨0, 3, 1, 1, 1, 0⟩, []⟩ "a").totals.errors = 0 ∧
      (Checksum.processFile toyMd5 ⟨fsConflict, ⟨0, 3, 1, 1, 1, 0⟩, []⟩ "a").out =
        [] ++ [.conflict "05050505050505050505050505050505"
          "07070707070707070707070707070707" "a"] ∧
      (Checksum.processFile toyMd5 ⟨fsConflict, ⟨0, 3, 1, 1, 1, 0⟩, []⟩ "a").fs.node =
        fsConflict.node ∧
      ioutilReadFile (Checksum.processFile toyMd5 ⟨fsConflict, ⟨0, 3, 1, 1, 1, 0⟩, []⟩ "a").fs
        ("a" ++ ".md5") = .ok "07070707070707070707070707070707" ∧
      (∀ q, fsConflict.node (q ++ ".md5") ≠ none →
        (Checksum.processFile toyMd5 ⟨fsConflict, ⟨0, 3, 1, 1, 1, 0⟩, []⟩ q).fs.node =
          fsConflict.node)) :=
  ⟨by decide, rfl, by decide, by decide,
    conflict_without_repair toyMd5 ⟨fsConflict, ⟨0, 3, 1, 1, 1, 0⟩, []⟩ "a"
      "07070707070707070707070707070707" "05050505050505050505050505050505"
      (by decide) rfl (by decide)⟩

theorem osOpen_congr (fs fs' : FS) (name : String) (h : fs'.node name = fs.node name) :
    osOpen fs' name = osOpen fs name := by
  unfold osOpen
  rw [h]

theorem writeFile_new (fs : FS) (name data : String) (perm : Nat)
    (hnone : fs.node name = none) (hok : (ioutilWriteFile fs name data perm).2 = none) :
    (ioutilWriteFile fs name data perm).1.node name =
        some (.file data ((createdMode perm fs.umask).testBit 8)
          ((createdMode perm fs.umask).testBit 7) false) ∧
      ∀ p, p ≠ name → (ioutilWriteFile fs name data perm).1.node p = fs.node p := by
  unfold ioutilWriteFile osOpenFileTrunc at hok ⊢
  rw [hnone] at hok ⊢
  by_cases hc : fs.canCreate name = true
  · simp only [hc, if_true] at hok ⊢
    have hwf : (fs.setNode name (.file "" ((createdMode perm fs.umask).testBit 8)
        ((createdMode perm fs.umask).testBit 7) false)).writeFault name = fs.writeFault name :=
      rfl
    rw [hwf] at hok ⊢
    cases hf : fs.writeFault name with
    | some n => rw [hf] at hok; simp at hok
    | none =>
      simp only [FS.written, FS.setNode, if_true]
      exact ⟨trivial, fun p hp => by simp [hp]⟩
  · simp [hc] at hok

/-- C4 as stated fails: in a directory where the sidecar cannot be created, a
readable file without a sidecar is Added on the first run, no sidecar is
written, and the second run gives Added again instead of Match. -/
theorem idempotence_needs_writable :
    Checksum.checksumFile toyMd5 fsReadOnly "a" = ("05050505050505050505050505050505", none) ∧
    fsReadOnly.node ("a" ++ ".md5") = none ∧
    (Checksum.validateFile toyMd5 fsReadOnly "a").what = Checksum.ChkAdd ∧
    (Checksum.validateFile toyMd5 fsReadOnly "a").fs.node ("a" ++ ".md5") = none ∧
    (Checksum.validateFile toyMd5 (Checksum.validateFile toyMd5 fsReadOnly "a").fs "a").what =
      Checksum.ChkAdd ∧
    ¬ (Checksum.validateFile toyMd5 (Checksum.validateFile toyMd5 fsReadOnly "a").fs "a").what =
      Checksum.ChkMatch := by
  decide

/-- What the two runs give when the write of the sidecar does not complete.
On a full disk the sidecar is created and stays empty, `ioutil.WriteFile`
returns an error that `validateFiles` drops, and the second run reports a
Conflict. Under a umask that masks the read permission of the owner the
digest is written, and the second run reports an Error. -/
theorem second_run_after_failed_write :
    (ioutilWriteFile fsDiskFull "a.md5" "05050505050505050505050505050505" 0o444).2 =
      some .io ∧
    (Checksum.validateFile toyMd5 fsDiskFull "a").what = Checksum.ChkAdd ∧
    (Checksum.validateFile toyMd5 fsDiskFull "a").fs.node "a.md5" =
      some (.file "" true false false) ∧
    (Checksum.validateFile toyMd5 (Checksum.validateFile toyMd5 fsDiskFull "a").fs "a").what =
      Checksum.ChkConflict ∧
    (ioutilWriteFile fsUmask "a.md5" "05050505050505050505050505050505" 0o444).2 = none ∧
    (Checksum.validateFile toyMd5 fsUmask "a").fs.node "a.md5" =
      some (.file "05050505050505050505050505050505" false false false) ∧
    (Checksum.validateFile toyMd5 (Checksum.validateFile toyMd5 fsUmask "a").fs "a").what =
      Checksum.ChkError := by
  decide

/-- C4, amended. Idempotence when the sidecar is written: a readable file
hashed to `s` with no entry at `path + ".md5"` is Added on the first run. If
`ioutil.WriteFile` reports no error, the sidecar then holds exactly `s` with
mode `0444 &^ umask`, the file still hashes to `s`, and two runs in a row
leave `conflicts` as it was. If moreover that mode lets the owner read the
sidecar, the second run reads `s` back and gives Match. -/
theorem idempotence_when_written (md5 : String → List (Fin 256)) (st : Checksum.State)
    (path s : String)
    (hs : Checksum.checksumFile md5 st.fs path = (s, none))
    (hnone : st.fs.node (path ++ ".md5") = none) :
    (Checksum.validateFile md5 st.fs path).what = Checksum.ChkAdd ∧
    ((ioutilWriteFile st.fs (path ++ ".md5") s 0o444).2 = none →
      (Checksum.validateFile md5 st.fs path).fs.node (path ++ ".md5") =
        some (.file s ((createdMode 0o444 st.fs.umask).testBit 8)
          ((createdMode 0o444 st.fs.umask).testBit 7) false) ∧
      Checksum.checksumFile md5 (Checksum.validateFile md5 st.fs path).fs path = (s, none) ∧
      (Checksum.processFile md5 (Checksum.processFile md5 st path) path).totals.conflicts =
        st.totals.conflicts ∧
      ((createdMode 0o444 st.fs.umask).testBit 8 = true →
        ioutilReadFile (Checksum.validateFile md5 st.fs path).fs (path ++ ".md5") = .ok s ∧
        (Checksum.validateFile md5 (Checksum.validateFile md5 st.fs path).fs path).what =
          Checksum.ChkMatch)) := by
  have hv := validateFile_add md5 st.fs path s hs hnone
  refine ⟨by rw [hv], fun hok => ?_⟩
  obtain ⟨hnode, hother⟩ := writeFile_new st.fs (path ++ ".md5") s 0o444 hnone hok
  have hfs : (Checksum.validateFile md5 st.fs path).fs =
      (ioutilWriteFile st.fs (path ++ ".md5") s 0o444).1 := by rw [hv]
  have hsum : Checksum.checksumFile md5 (Checksum.validateFile md5 st.fs path).fs path =
      (s, none) := by
    rw [hfs, ← hs]
    unfold Checksum.checksumFile checksumFileWith
    rw [osOpen_congr st.fs _ path (hother path (path_ne_sidecar path))]
  have hexists : (Checksum.validateFile md5 st.fs path).fs.node (path ++ ".md5") ≠ none := by
    rw [hfs, hnode]; simp
  have hmatch : (createdMode 0o444 st.fs.umask).testBit 8 = true →
      ioutilReadFile (Checksum.validateFile md5 st.fs path).fs (path ++ ".md5") = .ok s ∧
      (Checksum.validateFile md5 (Checksum.validateFile md5 st.fs path).fs path).what =
        Checksum.ChkMatch := by
    intro hr
    have hread : ioutilReadFile (Checksum.validateFile md5 st.fs path).fs (path ++ ".md5") =
        .ok s := by
      rw [hfs]
      simp [ioutilReadFile, osOpen, hnode, hr]
    refine ⟨hread, ?_⟩
    rw [validateFile_read md5 _ path s hsum hexists, hread]
    simp
  refine ⟨by rw [hfs]; exact hnode, hsum, ?_, hmatch⟩
  have hstep : ∀ st' : Checksum.State, (Checksum.processFile md5 st' path).totals =
      Checksum.updateStats st'.totals (Checksum.validateFile md5 st'.fs path).what :=
    fun _ => rfl
  have h1 : (Checksum.processFile md5 st path).totals.conflicts = st.totals.conflicts := by
    rw [hstep, hv]
    simp [Checksum.updateStats, Checksum.ChkAdd, Checksum.ChkMatch]
  have hfs1 : (Checksum.processFile md5 st path).fs = (Checksum.validateFile md5 st.fs path).fs :=
    rfl
  rw [← h1, hstep (Checksum.processFile md5 st path), hfs1]
  by_cases hr : (createdMode 0o444 st.fs.umask).testBit 8 = true
  · rw [(hmatch hr).2]
    simp [Checksum.updateStats, Checksum.ChkMatch]
  · have hread : ioutilReadFile (Checksum.validateFile md5 st.fs path).fs (path ++ ".md5") =
        .error .permission := by
      rw [hfs]
      simp [ioutilReadFile, osOpen, hnode, hr]
    rw [validateFile_read md5 _ path s hsum hexists, hread]
    simp [Checksum.updateStats, Checksum.ChkError, Checksum.ChkMatch, Checksum.ChkAdd,
      Checksum.ChkConflict]

theorem idempotence_when_written_witness :
    Checksum.checksumFile toyMd5 fsHello "a" = ("05050505050505050505050505050505", none) ∧
    fsHello.node ("a" ++ ".md5") = none ∧
    (ioutilWriteFile fsHello ("a" ++ ".md5") "05050505050505050505050505050505" 0o444).2 =
      none ∧
    (createdMode 0o444 fsHello.umask).testBit 8 = true ∧
    (Checksum.validateFiles toyMd5 ⟨fsHello, Checksum.Totals.zero, []⟩ ["a", "a"]).totals =
      ⟨0, 2, 1, 1, 0, 0⟩ ∧
    ((Checksum.validateFile toyMd5 fsHello "a").what = Checksum.ChkAdd ∧
      ((ioutilWriteFile fsHello ("a" ++ ".md5") "05050505050505050505050505050505" 0o444).2 =
          none →
        (Checksum.validateFile toyMd5 fsHello "a").fs.node ("a" ++ ".md5") =
          some (.file "05050505050505050505050505050505"
            ((createdMode 0o444 fsHello.umask).testBit 8)
            ((createdMode 0o444 fsHello.umask).testBit 7) false) ∧
        Checksum.checksumFile toyMd5 (Checksum.validateFile toyMd5 fsHello "a").fs "a" =
          ("05050505050505050505050505050505", none) ∧
        (Checksum.processFile toyMd5
          (Checksum.processFile toyMd5 ⟨fsHello, Checksum.Totals.zero, []⟩ "a")
          "a").totals.conflicts = 0 ∧
        ((createdMode 0o444 fsHello.umask).testBit 8 = true →
          ioutilReadFile (Checksum.validateFile toyMd5 fsHello "a").fs ("a" ++ ".md5") =
            .ok "05050505050505050505050505050505" ∧
          (Checksum.validateFile toyMd5 (Checksum.validateFile toyMd5 fsHello "a").fs "a").what =
            Checksum.ChkMatch))) :=
  ⟨by decide, by decide, by decide, by decide, by decide,
    idempotence_when_written toyMd5 ⟨fsHello, Checksum.Totals.zero, []⟩ "a"
      "05050505050505050505050505050505" (by decide) (by decide)⟩

/-! ## The manifest -/

theorem insert_first_iff (result : String → Bool) (rec : List String) (d : String) :
    (if rec.length > 0 then fun k => if k = rec.headD "" then true else result k
      else result) d = true ↔ (result d = true ∨ rec.head? = some d) := by
  cases rec with
  | nil => simp
  | cons a rest =>
    simp only [List.length_cons, gt_iff_lt, Nat.zero_lt_succ, if_true, List.headD_cons,
      List.head?_cons, Option.some.injEq]
    by_cases h : d = a
    · simp [h]
    · simp [h, Ne.symm h]

theorem readLoop_step (fuel : Nat) (r : Reader) (result : String → Bool) (rec : List String) :
    ListMissing.readLoop (fuel + 1) r result (rec, none) =
      ListMissing.readLoop fuel r.Read.2
        (if rec.length > 0 then fun k => if k = rec.headD "" then true else result k
          else result) r.Read.1 := by
  simp [ListMissing.readLoop]

theorem readLoop_stop (fuel : Nat) (r : Reader) (result : String → Bool) (rec : List String)
    (e : GoErr) :
    ListMissing.readLoop (fuel + 1) r result (rec, some e) = some (result, some e) := by
  simp [ListMissing.readLoop]

theorem Read_uniform (n : Nat) (raw : RawRecord) (rest : List RawRecord) (fpr : Int)
    (herr : raw.err = none) (hlen : raw.fields.length = n) (hfpr : fpr = 0 ∨ fpr = n) :
    Reader.Read ⟨raw :: rest, fpr⟩ = ((raw.fields, none), ⟨rest, n⟩) := by
  unfold Reader.Read
  simp only
  rcases hfpr with h | h
  · subst h; simp [herr, hlen]
  · subst h
    by_cases hpos : (n : Int) > 0
    · simp [hpos, herr, hlen]
    · have : (n : Int) = 0 := by omega
      simp [this, herr, hlen]

theorem readLoop_uniform (n : Nat) :
    ∀ (rows : List RawRecord) (fuel : Nat) (fpr : Int) (result : String → Bool)
      (rec : List String),
      (∀ raw ∈ rows, raw.err = none ∧ raw.fields.length = n) →
      (fpr = 0 ∨ fpr = n) → rows.length + 2 ≤ fuel →
      ∃ result', ListMissing.readLoop fuel ⟨rows, fpr⟩ result (rec, none) =
          some (result', some .EOF) ∧
        ∀ d, result' d = true ↔
          (result d = true ∨ rec.head? = some d ∨ ∃ raw ∈ rows, raw.fields.head? = some d) := by
  intro rows
  induction rows with
  | nil =>
    intro fuel fpr result rec _ _ hfuel
    obtain ⟨f, rfl⟩ : ∃ f, fuel = f + 2 := ⟨fuel - 2, by simp at hfuel; omega⟩
    refine ⟨_, by rw [readLoop_step]; exact readLoop_stop _ _ _ _ _, fun d => ?_⟩
    rw [insert_first_iff]
    simp
  | cons raw rest ih =>
    intro fuel fpr result rec hrows hfpr hfuel
    obtain ⟨f, rfl⟩ : ∃ f, fuel = f + 1 := ⟨fuel - 1, by simp at hfuel; omega⟩
    have hraw := hrows raw (List.mem_cons_self _ _)
    obtain ⟨result', hrun, hmem⟩ := ih f n
      (if rec.length > 0 then fun k => if k = rec.headD "" then true else result k
        else result) raw.fields
      (fun r hr => hrows r (List.mem_cons_of_mem _ hr)) (Or.inr rfl)
      (by simp at hfuel ⊢; omega)
    refine ⟨result', ?_, fun d => ?_⟩
    · rw [readLoop_step, Read_uniform n raw rest fpr hraw.1 hraw.2 hfpr]
      exact hrun
    · rw [hmem d, insert_first_iff]
      simp only [List.mem_cons, exists_eq_or_imp]
      tauto

/-- C7 as stated fails: for a readable manifest whose second row has fewer
columns than the first, `readchecksumfile` returns the error `ErrFieldCount`
of the reader, and the first field `d2` of the second row is not in the set. -/
theorem ragged_manifest_rejected :
    ioutilReadFile fsRagged "m" = .ok "d1\tx\nd2\n" ∧
    tsvLex "d1\tx\nd2\n" = [⟨["d1", "x"], none⟩, ⟨["d2"], none⟩] ∧
    (ListMissing.readchecksumfile tsvLex fsRagged "m").map (fun r => (r.1 "d1", r.1 "d2", r.2)) =
      some (true, false, some .ErrFieldCount) :=
  ⟨rfl, by decide, by decide⟩

/-- C7, amended. Manifest load when the rows agree in width: for a readable
manifest whose records are all read without a quoting error and all have the
same number of fields, `readchecksumfile` returns a nil error (the end of the
input is not one) and a set whose members are exactly the first fields of the
records, so duplicates collapse and later columns are ignored. -/
theorem readchecksumfile_uniform (lex : String → List RawRecord) (fs : FS)
    (name content : String) (n : Nat)
    (hread : ioutilReadFile fs name = .ok content)
    (hrows : ∀ raw ∈ lex content, raw.err = none ∧ raw.fields.length = n) :
    ∃ result, ListMissing.readchecksumfile lex fs name = some (result, none) ∧
      ∀ d, result d = true ↔ ∃ raw ∈ lex content, raw.fields.head? = some d := by
  have hopen : osOpen fs name = .ok (.ok content) := by
    unfold ioutilReadFile at hread
    cases ho : osOpen fs name with
    | error e => rw [ho] at hread; cases hread
    | ok f => rw [ho] at hread; simp only at hread; rw [hread]
  unfold ListMissing.readchecksumfile
  simp only [hopen, NewReader]
  cases hl : lex content with
  | nil =>
    refine ⟨fun _ => false, ?_, fun d => by simp⟩
    simp [Reader.Read, ListMissing.readLoop]
  | cons raw rest =>
    rw [hl] at hrows
    have hraw := hrows raw (List.mem_cons_self _ _)
    obtain ⟨result', hrun, hmem⟩ := readLoop_uniform n rest (rest.length + 1 + 2) n
      (fun _ => false) raw.fields (fun r hr => hrows r (List.mem_cons_of_mem _ hr))
      (Or.inr rfl) (by omega)
    refine ⟨result', ?_, fun d => ?_⟩
    · rw [Read_uniform n raw rest 0 hraw.1 hraw.2 (Or.inl rfl)]
      simp only [List.length_cons]
      rw [hrun]
      simp
    · rw [hmem d]
      simp

theorem readchecksumfile_uniform_witness :
    ioutilReadFile fsManifest "m" = .ok "d1\tx\n\nd2\ty\nd1\tz\n" ∧
    tsvLex "d1\tx\n\nd2\ty\nd1\tz\n" =
      [⟨["d1", "x"], none⟩, ⟨["d2", "y"], none⟩, ⟨["d1", "z"], none⟩] ∧
    (∀ raw ∈ tsvLex "d1\tx\n\nd2\ty\nd1\tz\n", raw.err = none ∧ raw.fields.length = 2) ∧
    (ListMissing.readchecksumfile tsvLex fsManifest "m").map
      (fun r => (r.1 "d1", r.1 "d2", r.1 "x", r.1 "", r.2)) =
      some (true, true, false, false, none) ∧
    (∃ result, ListMissing.readchecksumfile tsvLex fsManifest "m" = some (result, none) ∧
      ∀ d, result d = true ↔
        ∃ raw ∈ tsvLex "d1\tx\n\nd2\ty\nd1\tz\n", raw.fields.head? = some d) :=
  ⟨rfl, by decide, by decide, by decide,
    readchecksumfile_uniform tsvLex fsManifest "m" "d1\tx\n\nd2\ty\nd1\tz\n" 2 rfl (by decide)⟩

/-! ## The lookup -/

theorem lm_validateFiles_foldl (md5 : String → List (Fin 256)) (fs : FS)
    (hashes : String → Bool) (files : List String) :
    ∀ acc : ListMissing.Sent,
      (∀ p ∈ files, (ListMissing.checksumFile md5 fs p).2 = none) →
      files.foldl (ListMissing.validateFile md5 fs hashes) acc =
        ⟨acc.out ++ (files.filter fun p =>
            !hashes (ListMissing.checksumFile md5 fs p).1).map ListMissing.Line.path,
          acc.stats ++ files.map fun p =>
            if hashes (ListMissing.checksumFile md5 fs p).1 then ListMissing.ChkFound
            else ListMissing.ChkMissing⟩ := by
  induction files with
  | nil => intro acc _; simp
  | cons p rest ih =>
    intro acc hok
    have hp := hok p (List.mem_cons_self _ _)
    rw [List.foldl_cons, ih _ (fun q hq => hok q (List.mem_cons_of_mem _ hq))]
    have hpair : ListMissing.checksumFile md5 fs p =
        ((ListMissing.checksumFile md5 fs p).1, none) := by
      rw [← hp]
    have hstep : ListMissing.validateFile md5 fs hashes acc p =
        if hashes (ListMissing.checksumFile md5 fs p).1 then
          ⟨acc.out, acc.stats ++ [ListMissing.ChkFound]⟩
        else ⟨acc.out ++ [.path p], acc.stats ++ [ListMissing.ChkMissing]⟩ := by
      unfold ListMissing.validateFile
      rw [hpair]
    rw [hstep]
    by_cases hh : hashes (ListMissing.checksumFile md5 fs p).1 = true
    · simp [hh]
    · simp [hh]

theorem lm_updateStats_count (f : String → Bool) (files : List String) :
    ∀ t : ListMissing.Totals,
      ListMissing.updateStats t
          (files.map fun p => if f p then ListMissing.ChkFound else ListMissing.ChkMissing) =
        { t with
          fileCount := t.fileCount + files.length
          found := t.found + (files.filter fun p => f p).length
          missing := t.missing + (files.filter fun p => !f p).length } := by
  induction files with
  | nil => intro t; simp [ListMissing.updateStats]
  | cons p rest ih =>
    intro t
    have hcons : ListMissing.updateStats t
        ((p :: rest).map fun p => if f p then ListMissing.ChkFound else ListMissing.ChkMissing) =
        ListMissing.updateStats
          (ListMissing.updateStat t (if f p then ListMissing.ChkFound else ListMissing.ChkMissing))
          (rest.map fun p => if f p then ListMissing.ChkFound else ListMissing.ChkMissing) := rfl
    rw [hcons, ih]
    by_cases hf : f p = true
    · simp [hf, ListMissing.updateStat, ListMissing.ChkFound, ListMissing.ChkMissing]
      omega
    · simp [hf, ListMissing.updateStat, ListMissing.ChkFound, ListMissing.ChkMissing]
      omega

/-- C8. Manifest lookup: for every reference set and every list of files that
all hash without error, `validateFiles` sends Found for a file whose digest
is in the set and Missing otherwise, prints exactly the paths of the Missing
files, and the totals then have `found` equal to the number of files whose
digest is in the set, `missing` equal to the number whose digest is not, no
errors, and `fileCount` equal to the number of files. -/
theorem manifest_lookup (md5 : String → List (Fin 256)) (fs : FS) (hashes : String → Bool)
    (files : List String)
    (hok : ∀ p ∈ files, (ListMissing.checksumFile md5 fs p).2 = none) :
    (ListMissing.validateFiles md5 fs hashes files).stats =
      (files.map fun p =>
        if hashes (ListMissing.checksumFile md5 fs p).1 then ListMissing.ChkFound
        else ListMissing.ChkMissing) ∧
    (ListMissing.validateFiles md5 fs hashes files).out =
      (files.filter fun p =>
        !hashes (ListMissing.checksumFile md5 fs p).1).map ListMissing.Line.path ∧
    (ListMissing.updateStats ListMissing.Totals.zero
        (ListMissing.validateFiles md5 fs hashes files).stats).found =
      (files.filter fun p => hashes (ListMissing.checksumFile md5 fs p).1).length ∧
    (ListMissing.updateStats ListMissing.Totals.zero
        (ListMissing.validateFiles md5 fs hashes files).stats).missing =
      (files.filter fun p => !hashes (ListMissing.checksumFile md5 fs p).1).length ∧
    (ListMissing.updateStats ListMissing.Totals.zero
        (ListMissing.validateFiles md5 fs hashes files).stats).errors = 0 ∧
    (ListMissing.updateStats ListMissing.Totals.zero
        (ListMissing.validateFiles md5 fs hashes files).stats).fileCount = files.length := by
  have hv : ListMissing.validateFiles md5 fs hashes files = _ :=
    lm_validateFiles_foldl md5 fs hashes files ⟨[], []⟩ hok
  have hc := lm_updateStats_count (fun p => hashes (ListMissing.checksumFile md5 fs p).1) files
    ListMissing.Totals.zero
  rw [hv]
  simp only [List.nil_append]
  rw [hc]
  simp [ListMissing.Totals.zero]

theorem manifest_lookup_witness :
    (∀ p ∈ ["A", "B", "C"], (ListMissing.checksumFile toyMd5 fsABC p).2 = none) ∧
    (ListMissing.validateFiles toyMd5 fsABC hashesAB ["A", "B", "C"]).out = [.path "C"] ∧
    (ListMissing.updateStats ListMissing.Totals.zero
      (ListMissing.validateFiles toyMd5 fsABC hashesAB ["A", "B", "C"]).stats) =
      ⟨0, 3, 2, 1, 0⟩ ∧
    ((ListMissing.validateFiles toyMd5 fsABC hashesAB ["A", "B", "C"]).stats =
        (["A", "B", "C"].map fun p =>
          if hashesAB (ListMissing.checksumFile toyMd5 fsABC p).1 then ListMissing.ChkFound
          else ListMissing.ChkMissing) ∧
      (ListMissing.validateFiles toyMd5 fsABC hashesAB ["A", "B", "C"]).out =
        (["A", "B", "C"].filter fun p =>
          !hashesAB (ListMissing.checksumFile toyMd5 fsABC p).1).map ListMissing.Line.path ∧
      (ListMissing.updateStats ListMissing.Totals.zero
          (ListMissing.validateFiles toyMd5 fsABC hashesAB ["A", "B", "C"]).stats).found =
        (["A", "B", "C"].filter fun p =>
          hashesAB (ListMissing.checksumFile toyMd5 fsABC p).1).length ∧
      (ListMissing.updateStats ListMissing.Totals.zero
          (ListMissing.validateFiles toyMd5 fsABC hashesAB ["A", "B", "C"]).stats).missing =
        (["A", "B", "C"].filter fun p =>
          !hashesAB (ListMissing.checksumFile toyMd5 fsABC p).1).length ∧
      (ListMissing.updateStats ListMissing.Totals.zero
          (ListMissing.validateFiles toyMd5 fsABC hashesAB ["A", "B", "C"]).stats).errors = 0 ∧
      (ListMissing.updateStats ListMissing.Totals.zero
          (ListMissing.validateFiles toyMd5 fsABC hashesAB ["A", "B", "C"]).stats).fileCount =
        ["A", "B", "C"].length) :=
  ⟨by decide, by decide, by decide,
    manifest_lookup toyMd5 fsABC hashesAB ["A", "B", "C"] (by decide)⟩

/-! ## The byte count -/

theorem cs_validateFiles_byteCount (md5 : String → List (Fin 256)) (source : List String) :
    ∀ st : Checksum.State,
      (Checksum.validateFiles md5 st source).totals.byteCount = st.totals.byteCount := by
  induction source with
  | nil => intro st; rfl
  | cons p rest ih =>
    intro st
    show (Checksum.validateFiles md5 (Checksum.processFile md5 st p) rest).totals.byteCount = _
    rw [ih]
    exact cs_updateStats_byteCount _ _

/-- C2 fails on the code: no statement of either program adds to
`byteCount`. `validateFiles` of `checksum.go` and `updateStats` of
`list-missing.go` leave it as it was, and for one file of five bytes both
summaries print `0 bytes`. -/
theorem byteCount_never_recorded :
    (∀ (md5 : String → List (Fin 256)) (st : Checksum.State) (source : List String),
      (Checksum.validateFiles md5 st source).totals.byteCount = st.totals.byteCount) ∧
    (∀ (t : ListMissing.Totals) (update : List Int),
      (ListMissing.updateStats t update).byteCount = t.byteCount) ∧
    fsHello.node "a" = some (.file "hello" true true false) ∧
    "hello".length = 5 ∧
    Checksum.summary
        (Checksum.validateFiles toyMd5 ⟨fsHello, Checksum.Totals.zero, []⟩ ["a"]).totals =
      "1 files (0 bytes) scanned: 0 matches, 1 added, 0 conflicts, 0 errors\n" ∧
    ListMissing.summary (ListMissing.updateStats ListMissing.Totals.zero
        (ListMissing.validateFiles toyMd5 fsHello (fun _ => false) ["a"]).stats) =
      "1 files (0 bytes) scanned: 0 found, 1 missing, 0 errors\n" :=
  ⟨fun md5 st source => cs_validateFiles_byteCount md5 source st,
    fun t update => lm_updateStats_byteCount update t, by decide, by decide, by decide,
    by decide⟩

end Checksumd
